import Mathlib

/-!
Verification development for the farmsubsidy-store repository.

The repository snapshot contains the Makefile, READMEs, CHANGELOG,
Dockerfile, setup configuration and a login-generation notebook, but not
the Python package `farmsubsidy_store` itself (cleaning pipeline, storage
drivers, aggregation/API code).  Those missing components are modelled
here from the specification and from the repository documents that
describe them (README, CHANGELOG, Makefile); each such definition carries
a doc comment starting with "Modelled from the spec:".  The Makefile and
the notebook `generate_logins.ipynb` are present in the snapshot and are
embedded directly from their source text.
-/

namespace FarmSubsidy

/-! ## Identity Resolver: name normalization and fingerprints -/

/-- Modelled from the spec: the fingerprint normalization of the missing
cleaning code "strips diacritics"; this finite table folds common Latin
diacritic letters (both cases) to their base lowercase letter. -/
def foldDiacritic (c : Char) : Char :=
  match c with
  | 'à' | 'á' | 'â' | 'ã' | 'ä' | 'å' | 'À' | 'Á' | 'Â' | 'Ã' | 'Ä' | 'Å' => 'a'
  | 'è' | 'é' | 'ê' | 'ë' | 'È' | 'É' | 'Ê' | 'Ë' => 'e'
  | 'ì' | 'í' | 'î' | 'ï' | 'Ì' | 'Í' | 'Î' | 'Ï' => 'i'
  | 'ò' | 'ó' | 'ô' | 'õ' | 'ö' | 'Ò' | 'Ó' | 'Ô' | 'Õ' | 'Ö' => 'o'
  | 'ù' | 'ú' | 'û' | 'ü' | 'Ù' | 'Ú' | 'Û' | 'Ü' => 'u'
  | 'ç' | 'Ç' => 'c'
  | 'ñ' | 'Ñ' => 'n'
  | 'š' | 'Š' => 's'
  | 'ž' | 'Ž' => 'z'
  | 'ė' | 'Ė' | 'ę' | 'Ę' => 'e'
  | 'ū' | 'Ū' | 'ų' | 'Ų' => 'u'
  | 'į' | 'Į' => 'i'
  | 'č' | 'Č' => 'c'
  | _ => c

/-- Modelled from the spec: per-character normalization of the missing
cleaning code, folding diacritics and lower-casing. -/
def normChar (c : Char) : Char :=
  (foldDiacritic c).toLower

/-- Modelled from the spec: the punctuation characters that the missing
cleaning code strips from names before fingerprinting. -/
def punctuationChars : List Char :=
  ['.', ',', ';', ':', '!', '?', '"', '(', ')', '[', ']',
   '&', '+', '-', '_', '/', '\\', '*', '#', '%', '@', '=']

/-- Whether a character counts as punctuation for fingerprinting. -/
def isPunctChar (c : Char) : Bool :=
  punctuationChars.contains c

/-- Splits a character list into maximal whitespace-free words, dropping
all whitespace; `acc` holds the (reversed) word being read. -/
def wordsAux : List Char → List Char → List (List Char)
  | [], acc => if acc.isEmpty then [] else [acc.reverse]
  | c :: cs, acc =>
    if c.isWhitespace then
      if acc.isEmpty then wordsAux cs [] else acc.reverse :: wordsAux cs []
    else
      wordsAux cs (c :: acc)

/-- Per-character normalization followed by punctuation removal. -/
def canonChars (l : List Char) : List Char :=
  (l.map normChar).filter (fun c => !isPunctChar c)

/-- Modelled from the spec: the name normalization of the missing cleaning
code; lower-cases, strips diacritics and punctuation, and collapses
whitespace runs to single spaces, trimming the ends. -/
def normalizeName (s : String) : String :=
  String.intercalate " " ((wordsAux (canonChars s.data) []).map (fun w => String.mk w))

/-- Modelled from the spec: `recipient_fingerprint` is the normalized name,
concatenated with the normalized address when an address is present and
normalizes to something nonempty. -/
def recipientFingerprint (name : String) (addr : Option String) : String :=
  let n := normalizeName name
  match addr with
  | none => n
  | some a =>
    let na := normalizeName a
    if na = "" then n else n ++ " " ++ na

/-- Modelled from the spec: the fingerprint actually stored on the record.
If the name is empty after normalization the identity is synthesized from
the injected random token instead of being fingerprinted. -/
def resolvedFingerprint (name : String) (addr : Option String) (token : String) : String :=
  if normalizeName name = "" then token else recipientFingerprint name addr

/-- Modelled from the spec: the recipient identity used inside `pk`: the
source-supplied `recipient_id` when present, otherwise the resolved
fingerprint (which is the random token in the empty-name branch). -/
def recipientIdent (rid : Option String) (name : String) (addr : Option String)
    (token : String) : String :=
  match rid with
  | some r => r
  | none => resolvedFingerprint name addr token

/-- Modelled from the spec: the deterministic per-record primary key,
computed from (country, year, recipient identity, scheme). -/
def makePk (country : String) (year : Nat) (ident : String) (scheme : Option String) : String :=
  String.intercalate "-" [country, toString year, ident, scheme.getD ""]

example : normalizeName "Jonas   Petraitis" = "jonas petraitis" := by decide

/-! ## Data model and cleaning pipeline -/

/-- Modelled from the spec: a RawRecord is an ordered mapping of column
name to text value; here restricted to the columns the pipeline reads.
Absent columns are `none`. -/
structure RawRecord where
  country : Option String := none
  year : Option String := none
  recipient_name : Option String := none
  amount : Option String := none
  currency : Option String := none
  recipient_id : Option String := none
  recipient_address : Option String := none
  scheme : Option String := none
  amount_original : Option String := none
  currency_original : Option String := none
deriving DecidableEq, Repr

/-- Modelled from the spec: the canonical output record of the cleaning
stage (fields not exercised by any claim are omitted). Amounts are exact
rationals standing for the decimal values. -/
structure CanonicalRecord where
  pk : String
  country : String
  year : Nat
  recipient_id : Option String
  recipient_name : String
  recipient_fingerprint : String
  recipient_address : Option String
  scheme : Option String
  amount : Rat
  currency : String
  amount_original : Option Rat
  currency_original : Option String
deriving DecidableEq, Repr

deriving instance DecidableEq for Except

/-- Modelled from the spec: the row-level error taxonomy of the cleaning
pipeline. -/
inductive CleanError where
  | schemaError (missing : List String)
  | malformedValue (field : String)
  | conversionError (currency : String) (year : Nat)
deriving DecidableEq, Repr

/-- Modelled from the spec: operator-supplied per-batch configuration: the
fixed reporting currency and the optional CLI overrides for country, year
and currency. -/
structure CleanOptions where
  reportingCurrency : String := "EUR"
  currencyOverride : Option String := none
  countryOverride : Option String := none
  yearOverride : Option String := none
deriving DecidableEq, Repr

/-- Modelled from the spec: the external rate table mapping
(currency code, year) to a decimal conversion factor. -/
def RateTable : Type := List ((String × Nat) × Rat)

/-- Rate lookup by (currency, year). -/
def lookupRate (rates : RateTable) (currency : String) (year : Nat) : Option Rat :=
  match rates with
  | [] => none
  | ((c, y), r) :: rest =>
    if c = currency ∧ y = year then some r else lookupRate rest currency year

/-- Parses a digit run into its value; `none` on any non-digit. -/
def parseNatAux : List Char → Nat → Option Nat
  | [], acc => some acc
  | c :: cs, acc =>
    if c.isDigit then parseNatAux cs (acc * 10 + (c.toNat - 48)) else none

/-- Parses a nonempty digit string into a natural number. -/
def parseNatStr (s : String) : Option Nat :=
  match s.data with
  | [] => none
  | l => parseNatAux l 0

/-- Splits a character list at the first dot, if any. -/
def splitOnDot : List Char → List Char × Option (List Char)
  | [] => ([], none)
  | c :: cs =>
    if c = '.' then ([], some cs)
    else
      let r := splitOnDot cs
      (c :: r.1, r.2)

/-- Parses a nonnegative decimal numeral (optionally with a fractional
part) into an exact rational; `none` on malformed input. -/
def parseDecimal (s : String) : Option Rat :=
  match splitOnDot s.data with
  | (intPart, none) =>
    (parseNatAux intPart 0).bind (fun n => if intPart.isEmpty then none else some (n : Rat))
  | (intPart, some fracPart) =>
    match parseNatAux intPart 0, parseNatAux fracPart 0 with
    | some n, some m =>
      if intPart.isEmpty ∧ fracPart.isEmpty then none
      else some ((n : Rat) + (m : Rat) / ((10 : Rat) ^ fracPart.length))
    | _, _ => none

/-- The required columns a row fails to supply, taking the CLI overrides
into account. -/
def missingColumns (opts : CleanOptions) (row : RawRecord) : List String :=
  (if (opts.countryOverride <|> row.country).isNone then ["country"] else []) ++
  (if (opts.yearOverride <|> row.year).isNone then ["year"] else []) ++
  (if row.recipient_name.isNone then ["recipient_name"] else []) ++
  (if row.amount.isNone then ["amount"] else []) ++
  (if (opts.currencyOverride <|> row.currency).isNone then ["currency"] else [])

/-- Modelled from the spec: cleaning of one row by the missing pipeline
code (Schema Mapper, Currency Converter, Identity Resolver in sequence).
`token` is the injected random token used only in the empty-name branch.
The operator currency override takes precedence over the row currency; a
row whose currency equals the reporting currency passes through with the
original-value columns left unset. -/
def cleanRecord (opts : CleanOptions) (rates : RateTable) (token : String)
    (row : RawRecord) : Except CleanError CanonicalRecord :=
  match opts.countryOverride <|> row.country, opts.yearOverride <|> row.year,
        row.recipient_name, row.amount, opts.currencyOverride <|> row.currency with
  | some country, some yearS, some name, some amountS, some currency =>
    match parseNatStr yearS with
    | none => .error (.malformedValue "year")
    | some year =>
      match parseDecimal amountS with
      | none => .error (.malformedValue "amount")
      | some amount =>
        let fp := resolvedFingerprint name row.recipient_address token
        let ident := recipientIdent row.recipient_id name row.recipient_address token
        let pk := makePk country year ident row.scheme
        if currency = opts.reportingCurrency then
          .ok { pk := pk, country := country, year := year
                recipient_id := row.recipient_id, recipient_name := name
                recipient_fingerprint := fp
                recipient_address := row.recipient_address, scheme := row.scheme
                amount := amount, currency := opts.reportingCurrency
                amount_original := none, currency_original := none }
        else
          match lookupRate rates currency year with
          | none => .error (.conversionError currency year)
          | some rate =>
            .ok { pk := pk, country := country, year := year
                  recipient_id := row.recipient_id, recipient_name := name
                  recipient_fingerprint := fp
                  recipient_address := row.recipient_address, scheme := row.scheme
                  amount := amount * rate, currency := opts.reportingCurrency
                  amount_original := (row.amount_original.bind parseDecimal) <|> some amount
                  currency_original := row.currency_original <|> some currency }
  | _, _, _, _, _ => .error (.schemaError (missingColumns opts row))

/-! ## Batch processing: strict and tolerant modes -/

/-- Modelled from the spec: tolerant (ignore-errors) batch cleaning by the
missing pipeline code.  Rows are numbered from `i`; a failing row is
recorded with its row number and reason and excluded, all other rows are
emitted in input order.  `tokens` injects the per-row randomness. -/
def cleanTolerantAux (opts : CleanOptions) (rates : RateTable) (tokens : Nat → String) :
    Nat → List RawRecord → List CanonicalRecord × List (Nat × CleanError)
  | _, [] => ([], [])
  | i, r :: rs =>
    let rest := cleanTolerantAux opts rates tokens (i + 1) rs
    match cleanRecord opts rates (tokens i) r with
    | .ok c => (c :: rest.1, rest.2)
    | .error e => (rest.1, (i, e) :: rest.2)

/-- Tolerant batch cleaning with rows numbered from 1. -/
def cleanBatchTolerant (opts : CleanOptions) (rates : RateTable) (tokens : Nat → String)
    (rows : List RawRecord) : List CanonicalRecord × List (Nat × CleanError) :=
  cleanTolerantAux opts rates tokens 1 rows

/-- Modelled from the spec: strict batch cleaning by the missing pipeline
code: the first row-level error aborts the whole run, surfacing the row
number and reason, and no rows are emitted. -/
def cleanStrictAux (opts : CleanOptions) (rates : RateTable) (tokens : Nat → String) :
    Nat → List RawRecord → Except (Nat × CleanError) (List CanonicalRecord)
  | _, [] => .ok []
  | i, r :: rs =>
    match cleanRecord opts rates (tokens i) r with
    | .error e => .error (i, e)
    | .ok c => (cleanStrictAux opts rates tokens (i + 1) rs).map (fun l => c :: l)

/-- Strict batch cleaning with rows numbered from 1. -/
def cleanBatchStrict (opts : CleanOptions) (rates : RateTable) (tokens : Nat → String)
    (rows : List RawRecord) : Except (Nat × CleanError) (List CanonicalRecord) :=
  cleanStrictAux opts rates tokens 1 rows

/-- The indexed failures of a batch: row numbers (from `i`) paired with the
error the row produces, in input order. -/
def indexedFailuresAux (opts : CleanOptions) (rates : RateTable) (tokens : Nat → String) :
    Nat → List RawRecord → List (Nat × CleanError)
  | _, [] => []
  | i, r :: rs =>
    match cleanRecord opts rates (tokens i) r with
    | .ok _ => indexedFailuresAux opts rates tokens (i + 1) rs
    | .error e => (i, e) :: indexedFailuresAux opts rates tokens (i + 1) rs

/-- The successfully cleaned records of a batch, in input order. -/
def successesAux (opts : CleanOptions) (rates : RateTable) (tokens : Nat → String) :
    Nat → List RawRecord → List CanonicalRecord
  | _, [] => []
  | i, r :: rs =>
    match cleanRecord opts rates (tokens i) r with
    | .ok c => c :: successesAux opts rates tokens (i + 1) rs
    | .error _ => successesAux opts rates tokens (i + 1) rs

/-! ## Storage backend: table lifecycle -/

/-- Modelled from the spec: the observable state of a storage backend:
either no canonical table (`none`) or a table with its rows. -/
structure StorageState where
  table : Option (List CanonicalRecord)
deriving DecidableEq, Repr

/-- Modelled from the spec: backend-lifecycle errors. -/
inductive DbError where
  | tableExists
deriving DecidableEq, Repr

/-- Modelled from the spec: `init(recreate)` of the missing storage driver
code: creates the canonical table, failing with TableExistsError unless
`recreate` is true, in which case the existing table and its data are
destroyed first. -/
def initDb (recreate : Bool) (db : StorageState) : Except DbError StorageState :=
  match db.table with
  | some _ => if recreate then .ok ⟨some []⟩ else .error .tableExists
  | none => .ok ⟨some []⟩

/-- Runs `init` as a state transition: on failure the state is unchanged
and the error is reported. -/
def runInit (recreate : Bool) (db : StorageState) : StorageState × Option DbError :=
  match initDb recreate db with
  | .ok db' => (db', none)
  | .error e => (db, some e)

/-- The rows queryable from a backend state. -/
def queryRows (db : StorageState) : List CanonicalRecord :=
  db.table.getD []

/-! ## Makefile model -/

/-- The targets of the Makefile (`import` is a Lean keyword, hence
`importT`). -/
inductive MakeTarget where
  | all | install | init | download | clean | importT | ftm | clickhouse | api
deriving DecidableEq, Repr

/-- The prerequisite lists as written in the Makefile:
`all: init download clean import`, `import: init`, `ftm: clean`. -/
def prereqList : MakeTarget → List MakeTarget
  | .all => [.init, .download, .clean, .importT]
  | .importT => [.init]
  | .ftm => [.clean]
  | _ => []

/-- The commands relevant to the database lifecycle; everything else
(mkdir, wget, parallel cleaning, docker) is an `other` command that does
not touch the database. -/
inductive Cmd where
  | dbInitRecreate
  | dbImport (ignoreErrors : Bool) (file : String)
  | other (description : String)
deriving DecidableEq, Repr

/-- The recipe of each Makefile target, parametrized by the driver and the
cleaned files present, abstracting non-database commands.  The `import`
recipe runs `fscli db import` once per cleaned file in both branches of
its driver conditional (with `--ignore-errors` on the clickhouse branch);
the `init` recipe is exactly `fscli db init --recreate`. -/
def recipe (driver : String) (cleanedFiles : List String) : MakeTarget → List Cmd
  | .all => []
  | .install => [.other "pip install -e ."]
  | .init => [.dbInitRecreate]
  | .download => [.other "mkdir and wget src/latest", .other "mkdir and wget src/flat"]
  | .clean =>
    [.other "mkdir cleaned", .other "parallel fscli clean --ignore-errors",
     .other "fscli clean lt_2016 --currency=LTL", .other "fscli clean lt_2015 --currency=LTL",
     .other "fscli clean pl_2015 --currency=EUR"]
  | .importT => cleanedFiles.map (fun f => .dbImport (driver == "clickhouse") f)
  | .ftm => [.other "ftm map and store"]
  | .clickhouse => [.other "docker run clickhouse"]
  | .api => [.other "uvicorn api"]

/-- The target sequence `make` executes for each goal: prerequisites
first, each target at most once per invocation, in dependency order.
Unfolded by hand from `prereqList` (the graph is tiny and acyclic). -/
def buildSequence : MakeTarget → List MakeTarget
  | .all => [.init, .download, .clean, .importT]
  | .importT => [.init, .importT]
  | .ftm => [.clean, .ftm]
  | t => [t]

/-- All commands executed by one `make <goal>` invocation. -/
def makeCommands (driver : String) (cleanedFiles : List String) (goal : MakeTarget) :
    List Cmd :=
  (buildSequence goal).flatMap (recipe driver cleanedFiles)

/-- Modelled from the spec: the effect of the database commands on the
backend state; `contents` gives the rows each cleaned file holds.
Importing into a missing table fails and leaves the state unchanged. -/
def runCmd (contents : String → List CanonicalRecord) (db : StorageState) : Cmd → StorageState
  | .dbInitRecreate => ⟨some []⟩
  | .dbImport _ f =>
    match db.table with
    | some rows => ⟨some (rows ++ contents f)⟩
    | none => db
  | .other _ => db

/-- Runs a command list left to right. -/
def runCmds (contents : String → List CanonicalRecord) (db : StorageState)
    (cmds : List Cmd) : StorageState :=
  cmds.foldl (runCmd contents) db

/-! ## Aggregation engine: access window -/

/-- Modelled from the spec: the access-window policy.  Per the README
authentication section and the 2023-11-10 CHANGELOG entry (the API code is
not in the snapshot), the most recent `publicSpan` years (2021 and 2022 at
the time) are publicly available and everything older is hidden from
unauthorized callers. -/
structure AccessPolicy where
  latestYear : Nat
  publicSpan : Nat := 2
deriving DecidableEq, Repr

/-- Whether a year is inside the public window. -/
def isPublicYear (p : AccessPolicy) (y : Nat) : Bool :=
  p.latestYear - y < p.publicSpan

/-- An aggregation request: the year partitions it covers and whether the
caller presents the authorization capability. -/
structure AggregationRequest where
  years : List Nat
  authorized : Bool
deriving DecidableEq, Repr

/-- A constructed query plan: the year partitions the generated query text
ranges over. -/
structure QueryPlan where
  years : List Nat
deriving DecidableEq, Repr

/-- Modelled from the spec: query construction by the missing aggregation
code is window-policy-enforcing: a plan covering a year outside the public
window is refused at construction time unless the caller is authorized. -/
def buildAggregation (p : AccessPolicy) (req : AggregationRequest) :
    Except String QueryPlan :=
  if req.authorized || req.years.all (fun y => isPublicYear p y) then
    .ok ⟨req.years⟩
  else
    .error "restricted years require authorization"

/-- The query plans actually dispatched to the backend: none when
construction was refused. -/
def dispatched (r : Except String QueryPlan) : List QueryPlan :=
  match r with
  | .ok q => [q]
  | .error _ => []

/-! ## generate_logins (from generate_logins.ipynb) -/

/-- Python str(i) for integers (Lean renders integers identically). -/
def pyStr (i : Int) : String :=
  toString i

/-- Python str.zfill(width): pads with zeros on the left to the requested
width, keeping a leading sign in front of the padding. -/
def pyZfill (width : Nat) (s : String) : String :=
  if width ≤ s.length then s
  else
    match s.data with
    | c :: cs =>
      if c = '-' ∨ c = '+' then
        String.mk (c :: (List.replicate (width - s.length) '0' ++ cs))
      else
        String.mk (List.replicate (width - s.length) '0' ++ s.data)
    | [] => String.mk (List.replicate width '0')

/-- One generated login: username, bcrypt hash, cleartext password. -/
structure Login where
  username : String
  hashed : String
  password : String
deriving DecidableEq, Repr

/-- The loop body of `generate_logins`, iterating `fuel` times from `i`:
each step takes the first 12 characters of a fresh short uuid as password,
hashes it, and yields the zero-padded username. `uuidGen` injects the
randomness of `shortuuid.uuid()` and `hashPw` stands for
`bcrypt.hashpw`. -/
def generateLoginsAux (pfx : String) (uuidGen : Int → String) (hashPw : String → String) :
    Int → Nat → List Login
  | _, 0 => []
  | i, fuel + 1 =>
    let pw := String.mk ((uuidGen i).data.take 12)
    { username := pfx ++ "-" ++ pyZfill 4 (pyStr i), hashed := hashPw pw, password := pw }
      :: generateLoginsAux pfx uuidGen hashPw (i + 1) fuel

/-- `generate_logins(start, end, prefix)` from the notebook: yields one
login per `i in range(start, end)`. -/
def generate_logins (start stop : Int) (pfx : String) (uuidGen : Int → String)
    (hashPw : String → String) : List Login :=
  generateLoginsAux pfx uuidGen hashPw start (stop - start).toNat

/-! ## Concrete fixtures -/

/-- The Lithuania 2016 batch options from the Makefile manual fixes:
reporting currency EUR, operator currency override LTL. -/
def ltOpts : CleanOptions :=
  { reportingCurrency := "EUR", currencyOverride := some "LTL" }

/-- Rate table entry (LTL, 2016) -> 0.29. -/
def ltRates : RateTable :=
  [(("LTL", 2016), (29 : Rat) / 100)]

/-- The example input row of the spec. -/
def ltRow : RawRecord :=
  { country := some "LT", year := some "2016",
    recipient_name := some "Jonas   Petraitis",
    amount := some "100", currency := some "LTL" }

/-- A sample canonical record, used as prior table content. -/
def sampleRec : CanonicalRecord :=
  { pk := "LT-2016-jonas petraitis-", country := "LT", year := 2016,
    recipient_id := none, recipient_name := "Jonas   Petraitis",
    recipient_fingerprint := "jonas petraitis", recipient_address := none,
    scheme := none, amount := 29, currency := "EUR",
    amount_original := some 100, currency_original := some "LTL" }

/-- The canonical record the pipeline produces for `ltRow` (amount kept in
the unreduced form the converter computes). -/
def ltOutput : CanonicalRecord :=
  { pk := makePk "LT" 2016 "jonas petraitis" none, country := "LT", year := 2016,
    recipient_id := none, recipient_name := "Jonas   Petraitis",
    recipient_fingerprint := "jonas petraitis", recipient_address := none,
    scheme := none, amount := ((100 : Nat) : Rat) * ((29 : Rat) / 100),
    currency := "EUR", amount_original := some ((100 : Nat) : Rat),
    currency_original := some "LTL" }

set_option maxHeartbeats 1600000 in
/-- Two raw names differ only by formatting: per-character case or
diacritic changes (equal normalized characters), inserted or removed
punctuation, duplicated whitespace inside a run, and trailing
whitespace. -/
inductive NameVariant : List Char → List Char → Prop
  | nil : NameVariant [] []
  | endWsL (c : Char) : (normChar c).isWhitespace = true →
      isPunctChar (normChar c) = false → NameVariant [c] []
  | endWsR (c : Char) : (normChar c).isWhitespace = true →
      isPunctChar (normChar c) = false → NameVariant [] [c]
  | consClass (c d : Char) {l₁ l₂ : List Char} : normChar c = normChar d →
      NameVariant l₁ l₂ → NameVariant (c :: l₁) (d :: l₂)
  | punctL (c : Char) {l₁ l₂ : List Char} : isPunctChar (normChar c) = true →
      NameVariant l₁ l₂ → NameVariant (c :: l₁) l₂
  | punctR (c : Char) {l₁ l₂ : List Char} : isPunctChar (normChar c) = true →
      NameVariant l₁ l₂ → NameVariant l₁ (c :: l₂)
  | dupWsL (c d : Char) {l₁ l₂ : List Char} : (normChar c).isWhitespace = true →
      isPunctChar (normChar c) = false → (normChar d).isWhitespace = true →
      isPunctChar (normChar d) = false →
      NameVariant (d :: l₁) l₂ → NameVariant (c :: d :: l₁) l₂
  | dupWsR (c d : Char) {l₁ l₂ : List Char} : (normChar c).isWhitespace = true →
      isPunctChar (normChar c) = false → (normChar d).isWhitespace = true →
      isPunctChar (normChar d) = false →
      NameVariant l₁ (d :: l₂) → NameVariant l₁ (c :: d :: l₂)

/-- A punctuation character is dropped by `canonChars`. -/
theorem canonChars_cons_punct {c : Char} (h : isPunctChar (normChar c) = true)
    (l : List Char) : canonChars (c :: l) = canonChars l := by
  unfold canonChars
  rw [List.map_cons, List.filter_cons]
  simp [h]

/-- A non-punctuation character is kept (normalized) by `canonChars`. -/
theorem canonChars_cons_keep {c : Char} (h : isPunctChar (normChar c) = false)
    (l : List Char) : canonChars (c :: l) = normChar c :: canonChars l := by
  unfold canonChars
  rw [List.map_cons, List.filter_cons]
  simp [h]

/-- Two adjacent whitespace characters collapse in `wordsAux`. -/
theorem wordsAux_ws_ws (c d : Char) (hc : c.isWhitespace = true)
    (hd : d.isWhitespace = true) (cs : List Char) (acc : List Char) :
    wordsAux (c :: d :: cs) acc = wordsAux (d :: cs) acc := by
  cases hacc : acc.isEmpty <;> simp [wordsAux, hc, hd, hacc]

/-- A single trailing whitespace character is dropped by `wordsAux`. -/
theorem wordsAux_ws_nil (c : Char) (hc : c.isWhitespace = true) (acc : List Char) :
    wordsAux [c] acc = wordsAux [] acc := by
  cases hacc : acc.isEmpty <;> simp [wordsAux, hc, hacc]

/-- Formatting variants have the same word decomposition after
normalization, whatever partial word has been accumulated. -/
theorem nameVariant_wordsAux {l₁ l₂ : List Char} (h : NameVariant l₁ l₂) :
    ∀ acc, wordsAux (canonChars l₁) acc = wordsAux (canonChars l₂) acc := by
  induction h with
  | nil => intro acc; rfl
  | endWsL c hw hp =>
    intro acc
    rw [canonChars_cons_keep hp]
    exact wordsAux_ws_nil (normChar c) hw acc
  | endWsR c hw hp =>
    intro acc
    rw [canonChars_cons_keep hp]
    exact (wordsAux_ws_nil (normChar c) hw acc).symm
  | consClass c d hnorm _ ih =>
    intro acc
    have hc : ∀ b, isPunctChar (normChar d) = b → isPunctChar (normChar c) = b := by
      intro b hb
      rw [hnorm]
      exact hb
    cases hpunct : isPunctChar (normChar d) with
    | true =>
      rw [canonChars_cons_punct (hc true hpunct), canonChars_cons_punct hpunct]
      exact ih acc
    | false =>
      rw [canonChars_cons_keep (hc false hpunct), canonChars_cons_keep hpunct, hnorm]
      cases hws : (normChar d).isWhitespace with
      | true =>
        cases hacc : acc.isEmpty <;>
          simp [wordsAux, hws, hacc, ih []]
      | false =>
        simp [wordsAux, hws, ih (normChar d :: acc)]
  | punctL c hp _ ih =>
    intro acc
    rw [canonChars_cons_punct hp]
    exact ih acc
  | punctR c hp _ ih =>
    intro acc
    rw [canonChars_cons_punct hp]
    exact ih acc
  | dupWsL c d hcw hcp hdw hdp _ ih =>
    intro acc
    rw [canonChars_cons_keep hcp, canonChars_cons_keep hdp]
    rw [wordsAux_ws_ws (normChar c) (normChar d) hcw hdw]
    have h2 := ih acc
    rw [canonChars_cons_keep hdp] at h2
    exact h2
  | dupWsR c d hcw hcp hdw hdp _ ih =>
    intro acc
    rw [canonChars_cons_keep hcp, canonChars_cons_keep hdp]
    rw [wordsAux_ws_ws (normChar c) (normChar d) hcw hdw]
    have h2 := ih acc
    rw [canonChars_cons_keep hdp] at h2
    exact h2

/-- Formatting variants normalize to the same name. -/
theorem nameVariant_normalizeName {l₁ l₂ : List Char} (h : NameVariant l₁ l₂) :
    normalizeName (String.mk l₁) = normalizeName (String.mk l₂) := by
  unfold normalizeName
  rw [nameVariant_wordsAux h []]

/-- The fingerprint is a function of the normalized name. -/
theorem recipientFingerprint_congr {n₁ n₂ : String}
    (h : normalizeName n₁ = normalizeName n₂) (addr : Option String) :
    recipientFingerprint n₁ addr = recipientFingerprint n₂ addr := by
  unfold recipientFingerprint
  rw [h]

/-- The stored fingerprint (including the empty-name branch) is a function
of the normalized name and the token. -/
theorem resolvedFingerprint_congr {n₁ n₂ : String}
    (h : normalizeName n₁ = normalizeName n₂) (addr : Option String) (t : String) :
    resolvedFingerprint n₁ addr t = resolvedFingerprint n₂ addr t := by
  unfold resolvedFingerprint
  rw [h, recipientFingerprint_congr h addr]

/-! ## Theorems -/

/-- C6: cleaning the row country=LT, year=2016,
recipient_name="Jonas   Petraitis", amount=100, currency=LTL with currency
override LTL, reporting currency EUR and rate (LTL,2016)->0.29 outputs
amount=29, amount_original=100, currency=EUR, currency_original=LTL and
recipient_fingerprint="jonas petraitis"; and in general cleaning with an
operator currency override ignores the row currency column entirely
(override takes precedence). -/
theorem claim_C6 :
    (∃ rec, cleanRecord ltOpts ltRates "tok" ltRow = .ok rec ∧
      rec.amount = 29 ∧ rec.amount_original = some 100 ∧
      rec.currency = "EUR" ∧ rec.currency_original = some "LTL" ∧
      rec.recipient_fingerprint = "jonas petraitis") ∧
    ∀ (opts : CleanOptions) (rates : RateTable) (token : String) (row : RawRecord)
      (c : String) (cur : Option String),
      cleanRecord { opts with currencyOverride := some c } rates token
          { row with currency := cur } =
        cleanRecord { opts with currencyOverride := some c } rates token row := by
  constructor
  · refine ⟨ltOutput, ?_, ?_, ?_, rfl, rfl, rfl⟩
    · rfl
    · show ((100 : Nat) : Rat) * ((29 : Rat) / 100) = 29
      norm_num
    · show some ((100 : Nat) : Rat) = some 100
      norm_num
  · intro opts rates token row c cur
    rfl

/-- C2: the recipient fingerprint is a pure function of the normalized
name (plus the unchanged optional address): names with equal
normalizations fingerprint identically, and names differing only by
letter case, diacritics, punctuation, or whitespace (the `NameVariant`
relation) normalize identically; the same holds for the stored
fingerprint with its token. -/
theorem claim_C2 :
    (∀ (n₁ n₂ : String) (addr : Option String),
      normalizeName n₁ = normalizeName n₂ →
      recipientFingerprint n₁ addr = recipientFingerprint n₂ addr) ∧
    (∀ l₁ l₂ : List Char, NameVariant l₁ l₂ →
      normalizeName (String.mk l₁) = normalizeName (String.mk l₂)) ∧
    (∀ (n₁ n₂ : String) (addr : Option String) (t : String),
      normalizeName n₁ = normalizeName n₂ →
      resolvedFingerprint n₁ addr t = resolvedFingerprint n₂ addr t) :=
  ⟨fun _ _ addr h => recipientFingerprint_congr h addr,
   fun _ _ h => nameVariant_normalizeName h,
   fun _ _ addr t h => resolvedFingerprint_congr h addr t⟩

/-- C2 witness: a case/diacritic/punctuation variant of the example name
fingerprints identically (same address), and an explicit `NameVariant`
pair (case change plus a duplicated space) normalizes identically. -/
theorem claim_C2_witness :
    recipientFingerprint "JONAS  Petráitis," (some "Vilnius") =
      recipientFingerprint "jonas PETRAITIS." (some "Vilnius") ∧
    normalizeName (String.mk ['A', ' ', ' ', 'B']) =
      normalizeName (String.mk ['a', ' ', 'b']) :=
  ⟨claim_C2.1 "JONAS  Petráitis," "jonas PETRAITIS." (some "Vilnius") (by decide),
   claim_C2.2.1 ['A', ' ', ' ', 'B'] ['a', ' ', 'b']
     (NameVariant.consClass 'A' 'a' (by decide)
       (NameVariant.dupWsL ' ' ' ' (by decide) (by decide) (by decide) (by decide)
         (NameVariant.consClass ' ' ' ' rfl
           (NameVariant.consClass 'B' 'b' (by decide) NameVariant.nil))))⟩

/-- C5: when the canonical table exists, `init(recreate=false)` fails with
TableExistsError leaving the state unchanged, while `init(recreate=true)`
succeeds and none of the prior rows are queryable afterward. -/
theorem claim_C5 (db : StorageState) (rows : List CanonicalRecord)
    (h : db.table = some rows) :
    runInit false db = (db, some .tableExists) ∧
    ∃ db', initDb true db = .ok db' ∧ queryRows db' = [] ∧
      ∀ r ∈ rows, r ∉ queryRows db' := by
  refine ⟨?_, ⟨⟨some []⟩, ?_, rfl, ?_⟩⟩
  · simp [runInit, initDb, h]
  · simp [initDb, h]
  · intro r _ hr
    simp [queryRows] at hr

/-- C5 witness: a backend whose table holds one record. -/
theorem claim_C5_witness :
    runInit false ⟨some [sampleRec]⟩ = (⟨some [sampleRec]⟩, some .tableExists) ∧
    ∃ db', initDb true ⟨some [sampleRec]⟩ = .ok db' ∧ queryRows db' = [] ∧
      ∀ r ∈ [sampleRec], r ∉ queryRows db' :=
  claim_C5 ⟨some [sampleRec]⟩ [sampleRec] rfl

/-- C3 counterexample: under the access-window policy documented in the
README and CHANGELOG (the most recent two years are public, older years
are restricted), a request covering a year inside the most recent N years
(2022, with 2022 the latest year) without the capability is NOT rejected:
the claim asserts such requests are rejected before dispatch. -/
theorem claim_C3_counterexample :
    buildAggregation ⟨2022, 2⟩ ⟨[2022], false⟩ = .ok ⟨[2022]⟩ ∧
    dispatched (buildAggregation ⟨2022, 2⟩ ⟨[2022], false⟩) = [⟨[2022]⟩] := by
  exact ⟨rfl, rfl⟩

/-- C3 (amended): the restricted window is the complement of the public
window: an aggregation request that includes a year OLDER than the public
window (the most recent two years) issued without the authorization
capability is rejected at query-construction time and no query plan is
dispatched to the backend. -/
theorem claim_C3_amended (p : AccessPolicy) (req : AggregationRequest) (y : Nat)
    (hauth : req.authorized = false) (hy : y ∈ req.years)
    (hrestricted : isPublicYear p y = false) :
    buildAggregation p req = .error "restricted years require authorization" ∧
    dispatched (buildAggregation p req) = [] := by
  have hall : req.years.all (fun z => isPublicYear p z) = false := by
    cases hb : req.years.all (fun z => isPublicYear p z) with
    | false => rfl
    | true =>
      have h2 := List.all_eq_true.mp hb y hy
      have h3 : isPublicYear p y = true := h2
      rw [hrestricted] at h3
      exact absurd h3 Bool.false_ne_true
  have hcond : (req.authorized || req.years.all (fun z => isPublicYear p z)) = false := by
    rw [hauth, hall]
    rfl
  constructor
  · unfold buildAggregation
    rw [hcond]
    rfl
  · unfold dispatched buildAggregation
    rw [hcond]
    rfl

/-- C3 witness: a request for 2015 (older than the 2021/2022 public
window) without the capability is refused and nothing is dispatched. -/
theorem claim_C3_witness :
    buildAggregation ⟨2022, 2⟩ ⟨[2015], false⟩ =
        .error "restricted years require authorization" ∧
    dispatched (buildAggregation ⟨2022, 2⟩ ⟨[2015], false⟩) = [] :=
  claim_C3_amended ⟨2022, 2⟩ ⟨[2015], false⟩ 2015 rfl (by decide) (by decide)

/-- On a successful clean, the stored fingerprint is the resolved
fingerprint of the row name, address and injected token. -/
theorem cleanRecord_ok_fingerprint (opts : CleanOptions) (rates : RateTable)
    (token : String) (row : RawRecord) (rec : CanonicalRecord) (n : String)
    (hname : row.recipient_name = some n)
    (hok : cleanRecord opts rates token row = .ok rec) :
    rec.recipient_fingerprint = resolvedFingerprint n row.recipient_address token := by
  unfold cleanRecord at hok
  split at hok
  case _ country yearS name amountS currency h1 h2 h3 h4 h5 =>
    rw [hname] at h3
    injection h3 with h3
    subst h3
    split at hok
    · exact Except.noConfusion hok
    · split at hok
      · exact Except.noConfusion hok
      · split at hok
        · injection hok with hok
          rw [← hok]
        · split at hok
          · exact Except.noConfusion hok
          · injection hok with hok
            rw [← hok]
  case _ =>
    exact Except.noConfusion hok

/-- A successful clean with a name that stays nonempty after normalization
does not depend on the injected random token. -/
theorem cleanRecord_token_indep (opts : CleanOptions) (rates : RateTable)
    (t₁ t₂ : String) (row : RawRecord)
    (hname : ∀ n, row.recipient_name = some n → normalizeName n ≠ "") :
    cleanRecord opts rates t₁ row = cleanRecord opts rates t₂ row := by
  unfold cleanRecord
  cases h1 : opts.countryOverride <|> row.country with
  | none => rfl
  | some country =>
  cases h2 : opts.yearOverride <|> row.year with
  | none => rfl
  | some yearS =>
  cases h3 : row.recipient_name with
  | none => rfl
  | some name =>
  cases h4 : row.amount with
  | none => rfl
  | some amountS =>
  cases h5 : opts.currencyOverride <|> row.currency with
  | none => rfl
  | some currency =>
  have hne : normalizeName name ≠ "" := hname name h3
  have hfp : resolvedFingerprint name row.recipient_address t₁ =
      resolvedFingerprint name row.recipient_address t₂ := by
    unfold resolvedFingerprint
    rw [if_neg hne, if_neg hne]
  have hid : recipientIdent row.recipient_id name row.recipient_address t₁ =
      recipientIdent row.recipient_id name row.recipient_address t₂ := by
    unfold recipientIdent
    cases row.recipient_id with
    | some r => rfl
    | none => exact hfp
  simp only [hfp, hid]

/-- Default options: reporting currency EUR, no overrides. -/
def eurOpts : CleanOptions := {}

/-- An empty rate table. -/
def noRates : RateTable := []

/-- A row whose recipient name is empty: all required columns are present
(as columns), but the name normalizes to the empty string. -/
def anonRow : RawRecord :=
  { country := some "LT", year := some "2016", recipient_name := some "",
    amount := some "100", currency := some "EUR" }

/-- C1 counterexample: the empty-name row `anonRow` has every required
column present, yet cleaning it in two runs (two draws of the injected
random token) yields different `pk` and different `recipient_fingerprint`:
the synthesized random identity flows into both, so reprocessing the
identical input row does create a new logical record. -/
theorem claim_C1_counterexample :
    missingColumns eurOpts anonRow = [] ∧
    (cleanRecord eurOpts noRates "token-a" anonRow).map CanonicalRecord.pk ≠
      (cleanRecord eurOpts noRates "token-b" anonRow).map CanonicalRecord.pk ∧
    (cleanRecord eurOpts noRates "token-a" anonRow).map CanonicalRecord.recipient_fingerprint ≠
      (cleanRecord eurOpts noRates "token-b" anonRow).map
        CanonicalRecord.recipient_fingerprint := by
  refine ⟨rfl, ?_, ?_⟩ <;> decide

/-- C1 (amended): for every RawRecord whose recipient_name stays nonempty
after normalization, cleaning is deterministic: two cleanings of the same
row (with any two draws of the injected randomness) yield identical `pk`
and identical `recipient_fingerprint`, so reprocessing such a row never
creates a duplicate logical record; rows whose identity token is randomly
synthesized (empty normalized name) are excluded. -/
theorem claim_C1_amended (opts : CleanOptions) (rates : RateTable)
    (t₁ t₂ : String) (row : RawRecord)
    (hname : ∀ n, row.recipient_name = some n → normalizeName n ≠ "") :
    (cleanRecord opts rates t₁ row).map CanonicalRecord.pk =
      (cleanRecord opts rates t₂ row).map CanonicalRecord.pk ∧
    (cleanRecord opts rates t₁ row).map CanonicalRecord.recipient_fingerprint =
      (cleanRecord opts rates t₂ row).map CanonicalRecord.recipient_fingerprint := by
  rw [cleanRecord_token_indep opts rates t₁ t₂ row hname]
  exact ⟨rfl, rfl⟩

/-- C1 witness: the Lithuania example row, cleaned under two different
random tokens, keeps its pk and fingerprint. -/
theorem claim_C1_witness :
    (cleanRecord ltOpts ltRates "t1" ltRow).map CanonicalRecord.pk =
      (cleanRecord ltOpts ltRates "t2" ltRow).map CanonicalRecord.pk ∧
    (cleanRecord ltOpts ltRates "t1" ltRow).map CanonicalRecord.recipient_fingerprint =
      (cleanRecord ltOpts ltRates "t2" ltRow).map CanonicalRecord.recipient_fingerprint :=
  claim_C1_amended ltOpts ltRates "t1" "t2" ltRow
    (fun n hn => by injection hn with hn; rw [← hn]; decide)

/-- C7: whenever the effective currency of a row equals the reporting
currency, the cleaned record keeps the parsed amount unchanged and leaves
`amount_original` and `currency_original` unset, whatever the input
columns supplied. -/
theorem claim_C7 (opts : CleanOptions) (rates : RateTable) (token : String)
    (row : RawRecord) (rec : CanonicalRecord)
    (hcur : (opts.currencyOverride <|> row.currency) = some opts.reportingCurrency)
    (hok : cleanRecord opts rates token row = .ok rec) :
    rec.amount_original = none ∧ rec.currency_original = none ∧
    ∀ s, row.amount = some s → parseDecimal s = some rec.amount := by
  unfold cleanRecord at hok
  split at hok
  case _ country yearS name amountS currency h1 h2 h3 h4 h5 =>
    rw [hcur] at h5
    injection h5 with h5
    subst h5
    split at hok
    · exact Except.noConfusion hok
    · split at hok
      · exact Except.noConfusion hok
      · rename_i amount hamount
        split at hok
        · injection hok with hok
          subst hok
          refine ⟨rfl, rfl, ?_⟩
          intro s hs
          rw [hs] at h4
          injection h4 with h4
          subst h4
          exact hamount
        · rename_i hcond
          exact absurd rfl hcond
  case _ =>
    exact Except.noConfusion hok

/-- A row in the reporting currency that also supplies the optional
`amount_original` and `currency_original` input columns. -/
def c7Row : RawRecord :=
  { country := some "LT", year := some "2016", recipient_name := some "Jonas",
    amount := some "55", currency := some "EUR",
    amount_original := some "7", currency_original := some "XXX" }

/-- The record cleaning produces for `c7Row`. -/
def c7Output : CanonicalRecord :=
  { pk := makePk "LT" 2016 "jonas" none, country := "LT", year := 2016,
    recipient_id := none, recipient_name := "Jonas",
    recipient_fingerprint := "jonas", recipient_address := none,
    scheme := none, amount := ((55 : Nat) : Rat), currency := "EUR",
    amount_original := none, currency_original := none }

/-- C7 witness: `c7Row` supplies `amount_original`/`currency_original` as
input columns, yet its cleaned record leaves both unset and keeps the
amount. -/
theorem claim_C7_witness :
    c7Row.amount_original = some "7" ∧ c7Row.currency_original = some "XXX" ∧
    (c7Output.amount_original = none ∧ c7Output.currency_original = none ∧
      ∀ s, c7Row.amount = some s → parseDecimal s = some c7Output.amount) :=
  ⟨rfl, rfl, claim_C7 eurOpts noRates "tok" c7Row c7Output rfl (by decide)⟩

/-- C8: two rows whose names are empty after normalization, cleaned with
distinct injected random tokens within a run, receive the tokens
themselves as fingerprints (no fingerprinting of the empty name), hence
distinct fingerprints: empty-name recipients are never collapsed. -/
theorem claim_C8 (opts : CleanOptions) (rates : RateTable) (t₁ t₂ : String)
    (row₁ row₂ : RawRecord) (rec₁ rec₂ : CanonicalRecord) (n₁ n₂ : String)
    (hn₁ : row₁.recipient_name = some n₁) (he₁ : normalizeName n₁ = "")
    (hn₂ : row₂.recipient_name = some n₂) (he₂ : normalizeName n₂ = "")
    (ht : t₁ ≠ t₂)
    (ho₁ : cleanRecord opts rates t₁ row₁ = .ok rec₁)
    (ho₂ : cleanRecord opts rates t₂ row₂ = .ok rec₂) :
    rec₁.recipient_fingerprint = t₁ ∧ rec₂.recipient_fingerprint = t₂ ∧
    rec₁.recipient_fingerprint ≠ rec₂.recipient_fingerprint := by
  have f₁ := cleanRecord_ok_fingerprint opts rates t₁ row₁ rec₁ n₁ hn₁ ho₁
  have f₂ := cleanRecord_ok_fingerprint opts rates t₂ row₂ rec₂ n₂ hn₂ ho₂
  unfold resolvedFingerprint at f₁ f₂
  rw [if_pos he₁] at f₁
  rw [if_pos he₂] at f₂
  exact ⟨f₁, f₂, by rw [f₁, f₂]; exact ht⟩

/-- A second empty-name row: whitespace and punctuation only. -/
def anonRow2 : RawRecord :=
  { country := some "LT", year := some "2016", recipient_name := some "- -",
    amount := some "3", currency := some "EUR" }

/-- The cleaned record of `anonRow` under token "token-a". -/
def anonOutA : CanonicalRecord :=
  { pk := makePk "LT" 2016 "token-a" none, country := "LT", year := 2016,
    recipient_id := none, recipient_name := "",
    recipient_fingerprint := "token-a", recipient_address := none,
    scheme := none, amount := ((100 : Nat) : Rat), currency := "EUR",
    amount_original := none, currency_original := none }

/-- The cleaned record of `anonRow2` under token "token-b". -/
def anonOutB : CanonicalRecord :=
  { pk := makePk "LT" 2016 "token-b" none, country := "LT", year := 2016,
    recipient_id := none, recipient_name := "- -",
    recipient_fingerprint := "token-b", recipient_address := none,
    scheme := none, amount := ((3 : Nat) : Rat), currency := "EUR",
    amount_original := none, currency_original := none }

/-- C8 witness: two concrete empty-name rows in one run get the two
distinct injected tokens as fingerprints. -/
theorem claim_C8_witness :
    anonOutA.recipient_fingerprint = "token-a" ∧
    anonOutB.recipient_fingerprint = "token-b" ∧
    anonOutA.recipient_fingerprint ≠ anonOutB.recipient_fingerprint :=
  claim_C8 eurOpts noRates "token-a" "token-b" anonRow anonRow2 anonOutA anonOutB
    "" "- -" rfl (by decide) rfl (by decide) (by decide) (by decide) (by decide)

/-- Tolerant cleaning is exactly: emit the successes, log the indexed
failures. -/
theorem cleanTolerantAux_eq (opts : CleanOptions) (rates : RateTable)
    (tokens : Nat → String) : ∀ (rows : List RawRecord) (i : Nat),
    cleanTolerantAux opts rates tokens i rows =
      (successesAux opts rates tokens i rows,
       indexedFailuresAux opts rates tokens i rows) := by
  intro rows
  induction rows with
  | nil => intro i; rfl
  | cons r rs ih =>
    intro i
    unfold cleanTolerantAux successesAux indexedFailuresAux
    rw [ih (i + 1)]
    cases cleanRecord opts rates (tokens i) r <;> rfl

/-- Each input row lands either in the successes or in the failures. -/
theorem successes_failures_length (opts : CleanOptions) (rates : RateTable)
    (tokens : Nat → String) : ∀ (rows : List RawRecord) (i : Nat),
    (successesAux opts rates tokens i rows).length +
      (indexedFailuresAux opts rates tokens i rows).length = rows.length := by
  intro rows
  induction rows with
  | nil => intro i; rfl
  | cons r rs ih =>
    intro i
    unfold successesAux indexedFailuresAux
    cases cleanRecord opts rates (tokens i) r with
    | ok c =>
      simp only [List.length_cons]
      rw [Nat.succ_add]
      rw [ih (i + 1)]
    | error e =>
      simp only [List.length_cons]
      rw [Nat.add_succ]
      rw [ih (i + 1)]

/-- Strict cleaning succeeds with all successes when no row fails, and
aborts with the first indexed failure otherwise. -/
theorem cleanStrictAux_eq (opts : CleanOptions) (rates : RateTable)
    (tokens : Nat → String) : ∀ (rows : List RawRecord) (i : Nat),
    cleanStrictAux opts rates tokens i rows =
      (match indexedFailuresAux opts rates tokens i rows with
       | [] => .ok (successesAux opts rates tokens i rows)
       | e :: _ => .error e) := by
  intro rows
  induction rows with
  | nil => intro i; rfl
  | cons r rs ih =>
    intro i
    unfold cleanStrictAux successesAux indexedFailuresAux
    cases cleanRecord opts rates (tokens i) r with
    | ok c =>
      rw [ih (i + 1)]
      cases indexedFailuresAux opts rates tokens (i + 1) rs <;> rfl
    | error e => rfl

/-- A row that cleans successfully (reporting currency, integral
amount). -/
def goodRow : RawRecord :=
  { country := some "LT", year := some "2016", recipient_name := some "Jonas",
    amount := some "5", currency := some "EUR" }

/-- A row whose amount field is malformed. -/
def badRow : RawRecord :=
  { country := some "LT", year := some "2016", recipient_name := some "Jonas",
    amount := some "abc", currency := some "EUR" }

/-- A batch of 100 rows of which 3 have malformed amount fields. -/
def batch100 : List RawRecord :=
  List.replicate 97 goodRow ++ List.replicate 3 badRow

/-- C4: in tolerant mode every row is either emitted or logged as an
indexed failure (counts add up to the batch size, outputs are exactly the
successes in order, errors carry row number and reason in order), while
strict mode returns the emitted rows only when no failure exists and
otherwise aborts with the first failure, emitting nothing; on the
100-row batch with 3 malformed amounts this gives 97 outputs and 3 logged
errors in tolerant mode and an abort at the first malformed row (row 98)
in strict mode. -/
theorem claim_C4 (opts : CleanOptions) (rates : RateTable) (tokens : Nat → String)
    (rows : List RawRecord) :
    (cleanBatchTolerant opts rates tokens rows).1.length +
      (cleanBatchTolerant opts rates tokens rows).2.length = rows.length ∧
    (cleanBatchTolerant opts rates tokens rows).1 =
      successesAux opts rates tokens 1 rows ∧
    (cleanBatchTolerant opts rates tokens rows).2 =
      indexedFailuresAux opts rates tokens 1 rows ∧
    cleanBatchStrict opts rates tokens rows =
      (match indexedFailuresAux opts rates tokens 1 rows with
       | [] => .ok (successesAux opts rates tokens 1 rows)
       | e :: _ => .error e) ∧
    (cleanBatchTolerant eurOpts noRates (fun _ => "tok") batch100).1.length = 97 ∧
    (cleanBatchTolerant eurOpts noRates (fun _ => "tok") batch100).2.length = 3 ∧
    cleanBatchStrict eurOpts noRates (fun _ => "tok") batch100 =
      .error (98, .malformedValue "amount") := by
  refine ⟨?_, ?_, ?_, ?_, ?_, ?_, ?_⟩
  · unfold cleanBatchTolerant
    rw [cleanTolerantAux_eq]
    exact successes_failures_length opts rates tokens rows 1
  · unfold cleanBatchTolerant
    rw [cleanTolerantAux_eq]
  · unfold cleanBatchTolerant
    rw [cleanTolerantAux_eq]
  · exact cleanStrictAux_eq opts rates tokens rows 1
  · decide
  · decide
  · decide

/-- Importing a file list into an existing table appends its rows. -/
theorem runCmds_import (contents : String → List CanonicalRecord)
    (files : List String) (flag : Bool) : ∀ rows : List CanonicalRecord,
    runCmds contents ⟨some rows⟩ (files.map (fun f => Cmd.dbImport flag f)) =
      ⟨some (rows ++ files.flatMap contents)⟩ := by
  induction files with
  | nil => intro rows; simp [runCmds]
  | cons f fs ih =>
    intro rows
    simp only [List.map_cons, runCmds, List.foldl_cons, runCmd, List.flatMap_cons]
    have := ih (rows ++ contents f)
    simp only [runCmds] at this
    rw [this, List.append_assoc]

/-- C9: `make import` first runs the `init` target, whose recipe is
`fscli db init --recreate`: the first command of the invocation recreates
the table, so the final backend state is independent of whatever table
existed before (nothing is ever appended to pre-existing data), and the
rows queryable afterward are exactly the rows bulk-loaded from the cleaned
files. -/
theorem claim_C9 (driver : String) (files : List String)
    (contents : String → List CanonicalRecord) (db db' : StorageState) :
    makeCommands driver files .importT =
      Cmd.dbInitRecreate ::
        files.map (fun f => Cmd.dbImport (driver == "clickhouse") f) ∧
    runCmds contents db (makeCommands driver files .importT) =
      runCmds contents db' (makeCommands driver files .importT) ∧
    queryRows (runCmds contents db (makeCommands driver files .importT)) =
      files.flatMap contents := by
  have hcmds : makeCommands driver files .importT =
      Cmd.dbInitRecreate ::
        files.map (fun f => Cmd.dbImport (driver == "clickhouse") f) := by
    simp [makeCommands, buildSequence, recipe]
  have hrun : ∀ d : StorageState,
      runCmds contents d (makeCommands driver files .importT) =
        ⟨some (files.flatMap contents)⟩ := by
    intro d
    rw [hcmds]
    show runCmds contents ⟨some []⟩
      (files.map (fun f => Cmd.dbImport (driver == "clickhouse") f)) = _
    rw [runCmds_import]
    simp
  exact ⟨hcmds, by rw [hrun db, hrun db'], by rw [hrun db]; rfl⟩

/-- The login loop yields one triple per iteration. -/
theorem generateLoginsAux_length (pfx : String) (u : Int → String)
    (hashPw : String → String) : ∀ (n : Nat) (i : Int),
    (generateLoginsAux pfx u hashPw i n).length = n := by
  intro n
  induction n with
  | zero => intro i; rfl
  | succ n ih =>
    intro i
    unfold generateLoginsAux
    rw [List.length_cons, ih (i + 1)]

/-- The k-th triple of the login loop. -/
theorem generateLoginsAux_getElem (pfx : String) (u : Int → String)
    (hashPw : String → String) : ∀ (n : Nat) (i : Int) (k : Nat), k < n →
    (generateLoginsAux pfx u hashPw i n)[k]? =
      some { username := pfx ++ "-" ++ pyZfill 4 (pyStr (i + k)),
             hashed := hashPw (String.mk ((u (i + k)).data.take 12)),
             password := String.mk ((u (i + k)).data.take 12) } := by
  intro n
  induction n with
  | zero => intro i k hk; exact absurd hk (Nat.not_lt_zero k)
  | succ n ih =>
    intro i k hk
    cases k with
    | zero =>
      unfold generateLoginsAux
      simp
    | succ k =>
      have hk2 : k < n := Nat.lt_of_succ_lt_succ hk
      unfold generateLoginsAux
      rw [List.getElem?_cons_succ, ih (i + 1) k hk2]
      have harg : i + 1 + (k : Int) = i + ((k + 1 : Nat) : Int) := by
        push_cast
        ring
      rw [harg]

/-- `pyZfill` pads to at least the requested width. -/
theorem le_length_pyZfill (w : Nat) (s : String) : w ≤ (pyZfill w s).length := by
  unfold pyZfill
  split
  · assumption
  · rename_i hlt
    split
    · rename_i c cs hdata
      have hlen : s.length = cs.length + 1 := by
        rw [show s.length = s.data.length from rfl, hdata]
        rfl
      split
      · show w ≤ (c :: (List.replicate (w - s.length) '0' ++ cs)).length
        simp only [List.length_cons, List.length_append, List.length_replicate]
        omega
      · show w ≤ (List.replicate (w - s.length) '0' ++ s.data).length
        simp only [List.length_append, List.length_replicate]
        have : s.data.length = s.length := rfl
        omega
    · show w ≤ (List.replicate w '0').length
      rw [List.length_replicate]

/-- C10: for start <= end, `generate_logins(start, end, prefix)` yields
exactly end - start triples; the k-th username is the prefix, a dash, and
start+k zero-padded to width at least 4; the k-th password is the first 12
characters of the fresh short uuid, hence exactly 12 characters long
(shortuuid strings are 22 characters, injected here as `u` with the length
assumption made explicit). -/
theorem claim_C10 (start stop : Int) (pfx : String) (u : Int → String)
    (hashPw : String → String) (hle : start ≤ stop)
    (hu : ∀ i, 12 ≤ (u i).length) :
    ((generate_logins start stop pfx u hashPw).length : Int) = stop - start ∧
    ∀ k : Nat, k < (stop - start).toNat →
      (generate_logins start stop pfx u hashPw)[k]? =
        some { username := pfx ++ "-" ++ pyZfill 4 (pyStr (start + k)),
               hashed := hashPw (String.mk ((u (start + k)).data.take 12)),
               password := String.mk ((u (start + k)).data.take 12) } ∧
      4 ≤ (pyZfill 4 (pyStr (start + k))).length ∧
      (String.mk ((u (start + k)).data.take 12)).length = 12 := by
  constructor
  · unfold generate_logins
    rw [generateLoginsAux_length]
    exact Int.toNat_of_nonneg (by omega)
  · intro k hk
    refine ⟨?_, le_length_pyZfill 4 (pyStr (start + k)), ?_⟩
    · unfold generate_logins
      exact generateLoginsAux_getElem pfx u hashPw (stop - start).toNat start k hk
    · show ((u (start + (k : Int))).data.take 12).length = 12
      rw [List.length_take]
      have h12 : 12 ≤ ((u (start + (k : Int))).data).length := hu (start + (k : Int))
      omega

/-- C10 witness: three logins with a fixed 22-character uuid source and
the identity in place of bcrypt. -/
theorem claim_C10_witness :
    ((generate_logins 0 3 "farmsubsidy" (fun _ => "abcdefghijkl0123456789")
        (fun s => s)).length : Int) = 3 - 0 ∧
    ((generate_logins 0 3 "farmsubsidy" (fun _ => "abcdefghijkl0123456789")
        (fun s => s))[0]? =
      some { username := "farmsubsidy-0000", hashed := "abcdefghijkl",
             password := "abcdefghijkl" } ∧
      4 ≤ (pyZfill 4 (pyStr 0)).length ∧
      ("abcdefghijkl" : String).length = 12) :=
  ⟨(claim_C10 0 3 "farmsubsidy" (fun _ => "abcdefghijkl0123456789") (fun s => s)
      (by decide)
      (fun _ => by show (12 : Nat) ≤ ("abcdefghijkl0123456789" : String).length; decide)).1,
   (claim_C10 0 3 "farmsubsidy" (fun _ => "abcdefghijkl0123456789") (fun s => s)
      (by decide)
      (fun _ => by show (12 : Nat) ≤ ("abcdefghijkl0123456789" : String).length; decide)).2
     0 (by decide)⟩

end FarmSubsidy
